import Mathlib

/-!
Shallow embedding of `src/tdameritrade/client.py` (class `TDClient`): the
access-token lifecycle manager and the endpoint methods layered on it.

Conventions of the embedding:
* Python's mutable `self` is threaded explicitly: a method becomes a function
  from the client record (plus an environment of external collaborators) to a
  result together with the updated record.
* `time.time()` is modelled as an integer timestamp supplied by the
  environment (one value per operation; every claim about time speaks of a
  single instant, "at the same time").
* The collaborator `auth.access_token` (module `tdameritrade.auth`, a network
  call to the authorization endpoint) is modelled as a stream of outcomes: the
  n-th call to it yields `env.exchange n`, either an error (a raised
  exception) or a token record `{access_token, expires_in}`.
* The collaborator `requests.get/post/put` is modelled as a function from the
  assembled request to an `HTTPResponse`; `resp.json()` is the `body` field
  (a parsed JSON value), `resp.text` the `text` field.
* A raised Python exception is an `Except.error` / `Option.some` value.
-/

namespace TDA

/-- Parsed JSON values, the result type of `resp.json()`. -/
inductive JSON where
  | null : JSON
  | bool (b : Bool) : JSON
  | num (n : Int) : JSON
  | str (s : String) : JSON
  | arr (elems : List JSON) : JSON
  | obj (fields : List (String × JSON)) : JSON

mutual

/-- Structural equality on JSON values (Python `==` on parsed JSON). -/
def jsonBEq : JSON → JSON → Bool
  | JSON.null, JSON.null => true
  | JSON.bool a, JSON.bool b => a == b
  | JSON.num a, JSON.num b => a == b
  | JSON.str a, JSON.str b => a == b
  | JSON.arr xs, JSON.arr ys => jsonBEqList xs ys
  | JSON.obj xs, JSON.obj ys => jsonBEqFields xs ys
  | _, _ => false

/-- Equality on JSON arrays, elementwise. -/
def jsonBEqList : List JSON → List JSON → Bool
  | [], [] => true
  | x :: xs, y :: ys => jsonBEq x y && jsonBEqList xs ys
  | _, _ => false

/-- Equality on JSON object field lists, fieldwise. -/
def jsonBEqFields : List (String × JSON) → List (String × JSON) → Bool
  | [], [] => true
  | (k, v) :: xs, (l, w) :: ys => k == l && jsonBEq v w && jsonBEqFields xs ys
  | _, _ => false

end

def jsonBEq_rfl : ∀ (a : JSON), jsonBEq a a = true := by
  have key : ∀ (n : Nat), ∀ (a : JSON), sizeOf a ≤ n → jsonBEq a a = true := by
    intro n
    induction n with
    | zero =>
      intro a h
      cases a <;> simp_all
    | succ n ih =>
      intro a h
      cases a with
      | null => simp [jsonBEq]
      | bool b => simp [jsonBEq]
      | num m => simp [jsonBEq]
      | str s => simp [jsonBEq]
      | arr xs =>
        simp only [jsonBEq]
        simp only [JSON.arr.sizeOf_spec] at h
        have aux : ∀ (l : List JSON), sizeOf l ≤ n → jsonBEqList l l = true := by
          intro l
          induction l with
          | nil => intro hs; simp [jsonBEqList]
          | cons x l ihl =>
            intro hs
            simp only [List.cons.sizeOf_spec] at hs
            simp only [jsonBEqList, Bool.and_eq_true]
            exact ⟨ih x (by omega), ihl (by omega)⟩
        exact aux xs (by omega)
      | obj fs =>
        simp only [jsonBEq]
        simp only [JSON.obj.sizeOf_spec] at h
        have aux : ∀ (l : List (String × JSON)), sizeOf l ≤ n →
            jsonBEqFields l l = true := by
          intro l
          induction l with
          | nil => intro hs; simp [jsonBEqFields]
          | cons kv l ihl =>
            intro hs
            obtain ⟨k, v⟩ := kv
            simp only [List.cons.sizeOf_spec, Prod.mk.sizeOf_spec] at hs
            simp only [jsonBEqFields, Bool.and_eq_true, beq_self_eq_true, true_and]
            exact ⟨ih v (by omega), ihl (by omega)⟩
        exact aux fs (by omega)
  intro a
  exact key (sizeOf a) a le_rfl

def jsonBEq_eq : ∀ (a b : JSON), jsonBEq a b = true → a = b := by
  have key : ∀ (n : Nat), ∀ (a b : JSON), sizeOf a ≤ n → jsonBEq a b = true → a = b := by
    intro n
    induction n with
    | zero =>
      intro a b h
      cases a <;> simp_all
    | succ n ih =>
      intro a b h hbeq
      cases a with
      | null => cases b <;> simp_all [jsonBEq]
      | bool x => cases b <;> simp_all [jsonBEq]
      | num x => cases b <;> simp_all [jsonBEq]
      | str x => cases b <;> simp_all [jsonBEq]
      | arr xs =>
        cases b with
        | arr ys =>
          simp only [JSON.arr.sizeOf_spec] at h
          simp only [jsonBEq] at hbeq
          have aux : ∀ (l m : List JSON), sizeOf l ≤ n →
              jsonBEqList l m = true → l = m := by
            intro l
            induction l with
            | nil =>
              intro m hs hb
              cases m with
              | nil => rfl
              | cons y m => simp [jsonBEqList] at hb
            | cons x l ihl =>
              intro m hs hb
              cases m with
              | nil => simp [jsonBEqList] at hb
              | cons y m =>
                simp only [jsonBEqList, Bool.and_eq_true] at hb
                simp only [List.cons.sizeOf_spec] at hs
                have hx : x = y := ih x y (by omega) hb.1
                have hl : l = m := ihl m (by omega) hb.2
                rw [hx, hl]
          have := aux xs ys (by omega) hbeq
          rw [this]
        | null => simp [jsonBEq] at hbeq
        | bool _ => simp [jsonBEq] at hbeq
        | num _ => simp [jsonBEq] at hbeq
        | str _ => simp [jsonBEq] at hbeq
        | obj _ => simp [jsonBEq] at hbeq
      | obj fs =>
        cases b with
        | obj gs =>
          simp only [JSON.obj.sizeOf_spec] at h
          simp only [jsonBEq] at hbeq
          have aux : ∀ (l m : List (String × JSON)), sizeOf l ≤ n →
              jsonBEqFields l m = true → l = m := by
            intro l
            induction l with
            | nil =>
              intro m hs hb
              cases m with
              | nil => rfl
              | cons lw m => simp [jsonBEqFields] at hb
            | cons kv l ihl =>
              intro m hs hb
              obtain ⟨k, v⟩ := kv
              cases m with
              | nil => simp [jsonBEqFields] at hb
              | cons lw m =>
                obtain ⟨l2, w⟩ := lw
                simp only [jsonBEqFields, Bool.and_eq_true] at hb
                simp only [List.cons.sizeOf_spec, Prod.mk.sizeOf_spec] at hs
                have hk : k = l2 := eq_of_beq hb.1.1
                have hv : v = w := ih v w (by omega) hb.1.2
                have hl : l = m := ihl m (by omega) hb.2
                rw [hk, hv, hl]
          have := aux fs gs (by omega) hbeq
          rw [this]
        | null => simp [jsonBEq] at hbeq
        | bool _ => simp [jsonBEq] at hbeq
        | num _ => simp [jsonBEq] at hbeq
        | str _ => simp [jsonBEq] at hbeq
        | arr _ => simp [jsonBEq] at hbeq
  intro a b
  exact key (sizeOf a) a b le_rfl

instance : BEq JSON := ⟨jsonBEq⟩

instance : LawfulBEq JSON where
  eq_of_beq := jsonBEq_eq _ _
  rfl := jsonBEq_rfl _

instance : DecidableEq JSON := fun a b =>
  decidable_of_iff ((a == b) = true) beq_iff_eq

/-- Python exceptions that the modelled code can raise. -/
inductive PyErr where
  | authError (msg : String) : PyErr
  | exception (text : String) : PyErr
  | keyError (key : String) : PyErr
  | typeError (msg : String) : PyErr
  deriving DecidableEq

/-- An HTTP response from the resource endpoint: `status_code`, the parsed
JSON body (`resp.json()`) and the raw text (`resp.text`). -/
structure HTTPResponse where
  status_code : Int
  body : JSON
  text : String

instance : DecidableEq HTTPResponse := fun a b =>
  decidable_of_iff
    (a.status_code = b.status_code ∧ a.body = b.body ∧ a.text = b.text)
    (by cases a; cases b; simp)

/-- The JSON record returned by a successful `auth.access_token` exchange. -/
structure TokenResponse where
  access_token : String
  expires_in : Int
  deriving DecidableEq

/-- Outcome of one call to `auth.access_token`: a raised exception (modelled
by its message) or the token record. -/
abbrev AuthResult := Except String TokenResponse

instance {ε α : Type} [DecidableEq ε] [DecidableEq α] :
    DecidableEq (Except ε α) := fun a b =>
  match a, b with
  | Except.ok x, Except.ok y => decidable_of_iff (x = y) (by simp)
  | Except.error e, Except.error f => decidable_of_iff (e = f) (by simp)
  | Except.ok _, Except.error _ => isFalse (fun h => Except.noConfusion h)
  | Except.error _, Except.ok _ => isFalse (fun h => Except.noConfusion h)

/-- The mutable state of a `TDClient` instance (`__init__`, lines 15-22):
`_clientId`, `_refreshToken['token']`, `_accessToken['token']`,
`_accessToken['created_at']`, `_accessToken['expires_in']`, `_accountIds`. -/
structure TDClient where
  clientId : String
  refreshToken : String
  accessToken : String
  created_at : Int
  expires_in : Int
  accountIds : List String
  deriving DecidableEq

/-- `TDClient.__init__`: empty access token, `created_at = time.time()`
(the construction instant `t0`), `expires_in = -1` so that the token
"gets refreshed immediately". -/
def TDClient.init (clientId refreshToken : String) (accountIds : List String)
    (t0 : Int) : TDClient :=
  { clientId := clientId
    refreshToken := refreshToken
    accessToken := ""
    created_at := t0
    expires_in := -1
    accountIds := accountIds }

/-- `TDClient._headers` (lines 24-28). -/
def _headers (c : TDClient) : List (String × String) :=
  [("Authorization", "Bearer " ++ c.accessToken),
   ("Content-Type", "application/json")]

/-- `TDClient._accessTokenAgeSecs` (lines 41-42): `time.time() - created_at`. -/
def _accessTokenAgeSecs (c : TDClient) (now : Int) : Int :=
  now - c.created_at

/-- The condition tested by `_updateAccessTokenIfExpired` (lines 33-34):
`not self._accessToken['token'] or age >= expires_in - 60`.  The spec names
this predicate `isStale`. -/
def isStale (c : TDClient) (now : Int) : Bool :=
  c.accessToken == "" || decide (_accessTokenAgeSecs c now ≥ c.expires_in - 60)

/-- `TDClient._updateAccessTokenIfExpired` (lines 30-39), given the outcome
of the (single, potential) `auth.access_token` call.  Returns the updated
client together with the raised exception message, if any.  In the source the
exchange call happens before any of the three assignments, so a raising
exchange leaves every field as it was. -/
def _updateAccessTokenIfExpired (c : TDClient) (now : Int)
    (exchange : AuthResult) : TDClient × Option String :=
  if isStale c now then
    match exchange with
    | Except.error e => (c, some e)
    | Except.ok tok =>
        ({ c with accessToken := tok.access_token
                  created_at := now
                  expires_in := tok.expires_in }, none)
  else
    (c, none)

/-- Python dict assignment `d[k] = v` for a dict of JSON keys and values:
replaces the value in place if the key is present, else appends. -/
def dictSet (d : List (JSON × JSON)) (k v : JSON) : List (JSON × JSON) :=
  if d.any (fun p => p.1 == k) then
    d.map (fun p => if p.1 == k then (k, v) else p)
  else
    d ++ [(k, v)]

/-- Python dict assignment for string-keyed string dicts (request params). -/
def strDictSet (d : List (String × String)) (k v : String) :
    List (String × String) :=
  if d.any (fun p => p.1 == k) then
    d.map (fun p => if p.1 == k then (k, v) else p)
  else
    d ++ [(k, v)]

/-- Python dict merge `\x7b**d, **e\x7d`: entries of `e` override those of `d`. -/
def strDictMerge (d e : List (String × String)) : List (String × String) :=
  e.foldl (fun acc p => strDictSet acc p.1 p.2) d

/-- Python subscript `j[key]` on a parsed JSON value: a field lookup on an
object, `KeyError` when missing, `TypeError` on a non-object. -/
def pyGetKey (j : JSON) (key : String) : Except PyErr JSON :=
  match j with
  | JSON.obj fs =>
      match fs.lookup key with
      | some v => Except.ok v
      | none => Except.error (PyErr.keyError key)
  | _ => Except.error (PyErr.typeError "not subscriptable")

/-- Python iteration `for x in j` over a parsed JSON value: array elements,
object keys, string characters; `TypeError` otherwise. -/
def pyIter (j : JSON) : Except PyErr (List JSON) :=
  match j with
  | JSON.arr xs => Except.ok xs
  | JSON.obj fs => Except.ok (fs.map (fun p => JSON.str p.1))
  | JSON.str s => Except.ok (s.toList.map (fun ch => JSON.str (String.mk [ch])))
  | _ => Except.error (PyErr.typeError "not iterable")

mutual

/-- `json.dumps` on a parsed JSON value (default separators; escaping of
special characters inside strings is not modelled — no claim depends on the
serialized text). -/
def jsonDumps : JSON → String
  | JSON.null => "null"
  | JSON.bool true => "true"
  | JSON.bool false => "false"
  | JSON.num n => toString n
  | JSON.str s => "\"" ++ s ++ "\""
  | JSON.arr xs => "[" ++ jsonDumpsList xs ++ "]"
  | JSON.obj fs => "\x7b" ++ jsonDumpsFields fs ++ "\x7d"

/-- Comma-separated serialization of array elements. -/
def jsonDumpsList : List JSON → String
  | [] => ""
  | [x] => jsonDumps x
  | x :: xs => jsonDumps x ++ ", " ++ jsonDumpsList xs

/-- Comma-separated serialization of object fields. -/
def jsonDumpsFields : List (String × JSON) → String
  | [] => ""
  | [(k, v)] => "\"" ++ k ++ "\": " ++ jsonDumps v
  | (k, v) :: fs => "\"" ++ k ++ "\": " ++ jsonDumps v ++ ", " ++ jsonDumpsFields fs

end

/-- Modelled from the spec: module `tdameritrade/urls.py` (imported at
client.py line 10) is not under `src/`; §6 describes it as "a fixed set of URL
templates for accounts, quotes, instrument search, price history, option
chains, movers, and order placement/replacement/listing".  The base URL of the
brokerage's v1 REST API; no claim depends on the concrete strings. -/
def BASE : String := "https://api.tdameritrade.com/v1/"

/-- Modelled from the spec: the accounts endpoint template. -/
def ACCOUNTS : String := BASE ++ "accounts/"

/-- Modelled from the spec: the instrument-by-cusip endpoint template. -/
def INSTRUMENTS : String := BASE ++ "instruments/"

/-- Modelled from the spec: the quotes endpoint template. -/
def QUOTES : String := BASE ++ "marketdata/quotes"

/-- Modelled from the spec: the instrument search endpoint template. -/
def SEARCH : String := BASE ++ "instruments"

/-- Modelled from the spec: the price-history template (`HISTORY % symbol`). -/
def HISTORY (symbol : String) : String :=
  BASE ++ "marketdata/" ++ symbol ++ "/pricehistory"

/-- Modelled from the spec: the option-chain endpoint template. -/
def OPTIONCHAIN : String := BASE ++ "marketdata/chains"

/-- Modelled from the spec: the movers template (`MOVERS % index`). -/
def MOVERS (index : String) : String :=
  BASE ++ "marketdata/" ++ index ++ "/movers"

/-- Modelled from the spec: the orders template (`ORDERS % account_id`). -/
def ORDERS (accountId : String) : String :=
  BASE ++ "accounts/" ++ accountId ++ "/orders"

/-- Modelled from the spec: the order-replace template
(`ORDER_REPLACE % (account_id, order_id)`). -/
def ORDER_REPLACE (accountId orderId : String) : String :=
  BASE ++ "accounts/" ++ accountId ++ "/orders/" ++ orderId

/-- An outbound HTTP request as assembled by `requests.get/post/put`. -/
structure Request where
  method : String
  url : String
  headers : List (String × String)
  params : List (String × String)
  body : Option String
  deriving DecidableEq

/-- The external collaborators of one operation: the current clock value
(`time.time()`), the stream of `auth.access_token` outcomes (the n-th call
yields `exchange n`), and the resource-endpoint transport. -/
structure Env where
  now : Int
  exchange : Nat → AuthResult
  transport : Request → HTTPResponse

/-- Observable events on the calling path: a call to
`_updateAccessTokenIfExpired` (the spec's `ensureFresh`), and an issued
resource-endpoint request. -/
inductive Event where
  | tokenCheck : Event
  | httpRequest (method : String) (url : String) : Event
  deriving DecidableEq

/-- A client together with its environment, the number of authorization
exchanges performed so far, and the trace of events so far. -/
structure World where
  client : TDClient
  env : Env
  exchangeCalls : Nat
  trace : List Event

/-- One call to `self._updateAccessTokenIfExpired()`: consumes the next
exchange outcome exactly when the staleness condition holds, records the
check in the trace, and turns a raised exchange failure into `AuthError`. -/
def checkToken (w : World) : Option PyErr × World :=
  let r := _updateAccessTokenIfExpired w.client w.env.now
             (w.env.exchange w.exchangeCalls)
  (r.2.map PyErr.authError,
   { w with client := r.1
            exchangeCalls :=
              w.exchangeCalls + (if isStale w.client w.env.now then 1 else 0)
            trace := w.trace ++ [Event.tokenCheck] })

/-- One `requests.get/post/put` call: assembles the request with the
client's current headers and records it in the trace. -/
def doRequest (method url : String) (params : List (String × String))
    (body : Option String) (w : World) : HTTPResponse × World :=
  (w.env.transport
     { method := method
       url := url
       headers := _headers w.client
       params := params
       body := body },
   { w with trace := w.trace ++ [Event.httpRequest method url] })

/-- The query-string suffix computed by `TDClient.accounts` (lines 47-56)
from its `positions` and `orders` flags. -/
def accountsFields (positions orders : Bool) : String :=
  if positions || orders then
    let fields := "?fields="
    if positions then
      let fields := fields ++ "positions"
      if orders then fields ++ ",orders" else fields
    else
      if orders then fields ++ "orders" else fields
  else
    ""

/-- The per-account loop of `TDClient.accounts` (lines 58-66): for each
configured id, refresh-check, GET the account, store the body under the id on
status 200, raise `Exception(resp.text)` otherwise. -/
def accountsLoop (fields : String) (accs : List String)
    (ret : List (JSON × JSON)) (w : World) :
    Except PyErr (List (JSON × JSON)) × World :=
  match accs with
  | [] => (Except.ok ret, w)
  | acc :: rest =>
    match checkToken w with
    | (some e, w1) => (Except.error e, w1)
    | (none, w1) =>
      let (resp, w2) := doRequest "GET" (ACCOUNTS ++ acc ++ fields) [] none w1
      if resp.status_code = 200 then
        accountsLoop fields rest (dictSet ret (JSON.str acc) resp.body) w2
      else
        (Except.error (PyErr.exception resp.text), w2)

/-- The subscript chain `account['securitiesAccount']['accountId']`
(line 72). -/
def accountKey (account : JSON) : Except PyErr JSON :=
  match pyGetKey account "securitiesAccount" with
  | Except.error e => Except.error e
  | Except.ok sa => pyGetKey sa "accountId"

/-- The accumulation loop of lines 71-72: for each returned account record,
`ret[account['securitiesAccount']['accountId']] = account`. -/
def insertAccounts (accountList : List JSON) (ret : List (JSON × JSON)) :
    Except PyErr (List (JSON × JSON)) :=
  match accountList with
  | [] => Except.ok ret
  | account :: rest =>
    match accountKey account with
    | Except.error e => Except.error e
    | Except.ok k => insertAccounts rest (dictSet ret k account)

/-- `TDClient.accounts` (lines 44-76).  Python truthiness of
`self._accountIds` selects the per-account loop (non-empty list) or the
single all-accounts query (empty list). -/
def accounts (positions orders : Bool) (w : World) :
    Except PyErr (List (JSON × JSON)) × World :=
  let fields := accountsFields positions orders
  if w.client.accountIds.isEmpty then
    match checkToken w with
    | (some e, w1) => (Except.error e, w1)
    | (none, w1) =>
      let (resp, w2) := doRequest "GET" (ACCOUNTS ++ fields) [] none w1
      if resp.status_code = 200 then
        match pyIter resp.body with
        | Except.error e => (Except.error e, w2)
        | Except.ok accountList =>
          match insertAccounts accountList [] with
          | Except.error e => (Except.error e, w2)
          | Except.ok ret => (Except.ok ret, w2)
      else
        (Except.error (PyErr.exception resp.text), w2)
  else
    accountsLoop fields w.client.accountIds [] w

/-- `TDClient.search` (lines 81-87); the source's default projection is
`'symbol-search'`, passed explicitly here. -/
def search (symbol projection : String) (w : World) :
    Except PyErr JSON × World :=
  match checkToken w with
  | (some e, w1) => (Except.error e, w1)
  | (none, w1) =>
    let (resp, w2) := doRequest "GET" SEARCH
      [("symbol", symbol), ("projection", projection)] none w1
    (Except.ok resp.body, w2)

/-- `TDClient.fundamental` (lines 97-98). -/
def fundamental (symbol : String) (w : World) : Except PyErr JSON × World :=
  search symbol "fundamental" w

/-- `TDClient.instrument` (lines 103-107). -/
def instrument (cusip : String) (w : World) : Except PyErr JSON × World :=
  match checkToken w with
  | (some e, w1) => (Except.error e, w1)
  | (none, w1) =>
    let (resp, w2) := doRequest "GET" (INSTRUMENTS ++ cusip) [] none w1
    (Except.ok resp.body, w2)

/-- `TDClient.quote` (lines 112-117). -/
def quote (symbol : String) (w : World) : Except PyErr JSON × World :=
  match checkToken w with
  | (some e, w1) => (Except.error e, w1)
  | (none, w1) =>
    let (resp, w2) := doRequest "GET" QUOTES
      [("symbol", symbol.toUpper)] none w1
    (Except.ok resp.body, w2)

/-- `TDClient.history` (lines 124-128); `kwargs` is the keyword-argument
dict. -/
def history (symbol : String) (kwargs : List (String × String)) (w : World) :
    Except PyErr JSON × World :=
  match checkToken w with
  | (some e, w1) => (Except.error e, w1)
  | (none, w1) =>
    let (resp, w2) := doRequest "GET" (HISTORY symbol) kwargs none w1
    (Except.ok resp.body, w2)

/-- `TDClient.options` (lines 137-142); params are
`\x7b'symbol': symbol.upper(), **kwargs\x7d`. -/
def options (symbol : String) (kwargs : List (String × String)) (w : World) :
    Except PyErr JSON × World :=
  match checkToken w with
  | (some e, w1) => (Except.error e, w1)
  | (none, w1) =>
    let (resp, w2) := doRequest "GET" OPTIONCHAIN
      (strDictMerge [("symbol", symbol.toUpper)] kwargs) none w1
    (Except.ok resp.body, w2)

/-- `TDClient.movers` (lines 161-166); the source's defaults are
`direction='up'`, `change_type='percent'`, passed explicitly here. -/
def movers (index direction change_type : String) (w : World) :
    Except PyErr JSON × World :=
  match checkToken w with
  | (some e, w1) => (Except.error e, w1)
  | (none, w1) =>
    let (resp, w2) := doRequest "GET" (MOVERS index)
      [("direction", direction), ("change_type", change_type)] none w1
    (Except.ok resp.body, w2)

/-- `TDClient.place_order` (lines 168-201). -/
def place_order (account_id : String) (order_dict : JSON) (w : World) :
    Except PyErr JSON × World :=
  match checkToken w with
  | (some e, w1) => (Except.error e, w1)
  | (none, w1) =>
    let (resp, w2) := doRequest "POST" (ORDERS account_id) []
      (some (jsonDumps order_dict)) w1
    (Except.ok resp.body, w2)

/-- `TDClient.replace_order` (lines 203-217). -/
def replace_order (account_id order_id : String) (order_dict : JSON)
    (w : World) : Except PyErr JSON × World :=
  match checkToken w with
  | (some e, w1) => (Except.error e, w1)
  | (none, w1) =>
    let (resp, w2) := doRequest "PUT" (ORDER_REPLACE account_id order_id) []
      (some (jsonDumps order_dict)) w1
    (Except.ok resp.body, w2)

/-- `TDClient.get_orders` (lines 219-234); params are `\x7b**kwargs\x7d`. -/
def get_orders (account_id : String) (kwargs : List (String × String))
    (w : World) : Except PyErr JSON × World :=
  match checkToken w with
  | (some e, w1) => (Except.error e, w1)
  | (none, w1) =>
    let (resp, w2) := doRequest "GET" (ORDERS account_id)
      (strDictMerge [] kwargs) none w1
    (Except.ok resp.body, w2)

/-- Trace well-formedness: the event trace is a sequence of
(`tokenCheck`, `httpRequest`) pairs, optionally ending in a lone
`tokenCheck` (an operation aborted because its refresh raised).  This holds
exactly when every issued request is immediately preceded by exactly one
token check and no request is issued without one. -/
def checksBeforeRequests : List Event → Bool
  | [] => true
  | [Event.tokenCheck] => true
  | Event.tokenCheck :: Event.httpRequest _ _ :: rest => checksBeforeRequests rest
  | _ => false

/-- The (method, url) pairs of the requests recorded in a trace. -/
def requestsOf (t : List Event) : List (String × String) :=
  t.filterMap (fun e =>
    match e with
    | Event.httpRequest m u => some (m, u)
    | _ => none)

/-- Iterated `_updateAccessTokenIfExpired` steps: every mutation of the token
store in the source goes through this operation, so the store states reachable
from `c` are exactly the results of `runChecks c steps` for step lists
pairing a clock value with an exchange outcome. -/
def runChecks (c : TDClient) (steps : List (Int × AuthResult)) : TDClient :=
  steps.foldl (fun s p => (_updateAccessTokenIfExpired s p.1 p.2).1) c

/-- An environment whose exchanges always succeed with a real token and whose
transport always answers 200. -/
def okEnv : Env :=
  { now := 0
    exchange := fun _ => Except.ok ⟨"TOK", 1800⟩
    transport := fun _ => ⟨200, JSON.null, "ok"⟩ }

/-- A freshly constructed client (empty token) in `okEnv`. -/
def freshWorld : World :=
  { client := TDClient.init "cid" "rtok" [] 0
    env := okEnv
    exchangeCalls := 0
    trace := [] }

/-- An environment whose exchange "succeeds" with an empty access_token. -/
def emptyTokEnv : Env :=
  { now := 0
    exchange := fun _ => Except.ok ⟨"", 3600⟩
    transport := fun _ => ⟨200, JSON.null, "ok"⟩ }

/-- A freshly constructed client in `emptyTokEnv`. -/
def emptyTokWorld : World :=
  { client := TDClient.init "cid" "rtok" [] 0
    env := emptyTokEnv
    exchangeCalls := 0
    trace := [] }

/-- A non-2xx response with a JSON error body. -/
def resp500 : HTTPResponse :=
  ⟨500, JSON.obj [("error", JSON.str "boom")], "boom"⟩

/-- A client holding a currently valid token (issued at 0, 1800 s lifetime). -/
def holdingClient : TDClient :=
  { clientId := "cid"
    refreshToken := "rtok"
    accessToken := "TOK"
    created_at := 0
    expires_in := 1800
    accountIds := [] }

/-- `holdingClient` facing a transport that always answers 500. -/
def err500World : World :=
  { client := holdingClient
    env := { now := 0
             exchange := fun _ => Except.error "unused"
             transport := fun _ => resp500 }
    exchangeCalls := 0
    trace := [] }

/-- A fresh client with no configured account ids facing the 500 transport
and a working exchange. -/
def errAllWorld : World :=
  { client := TDClient.init "cid" "rtok" [] 0
    env := { now := 0
             exchange := fun _ => Except.ok ⟨"TOK", 1800⟩
             transport := fun _ => resp500 }
    exchangeCalls := 0
    trace := [] }

/-- An account record of the all-accounts response, as returned by the
brokerage: the id sits under `securitiesAccount.accountId`. -/
def acct (aid : String) : JSON :=
  JSON.obj [("securitiesAccount", JSON.obj [("accountId", JSON.str aid)])]

/-- A 200 all-accounts response listing two accounts. -/
def allAccountsResp : HTTPResponse :=
  ⟨200, JSON.arr [acct "A1", acct "A2"], "ok"⟩

/-- A fresh client with no configured account ids facing the all-accounts
transport. -/
def allAccountsWorld : World :=
  { client := TDClient.init "cid" "rtok" [] 0
    env := { now := 0
             exchange := fun _ => Except.ok ⟨"TOK", 1800⟩
             transport := fun _ => allAccountsResp }
    exchangeCalls := 0
    trace := [] }

/-- A fresh client configured with two account ids in `okEnv`. -/
def listedWorld : World :=
  { client := TDClient.init "cid" "rtok" ["A", "B"] 0
    env := okEnv
    exchangeCalls := 0
    trace := [] }

/-- A fresh client configured with the single account id "A" facing the 500
transport and a working exchange. -/
def errListedWorld : World :=
  { client := TDClient.init "cid" "rtok" ["A"] 0
    env := { now := 0
             exchange := fun _ => Except.ok ⟨"TOK", 1800⟩
             transport := fun _ => resp500 }
    exchangeCalls := 0
    trace := [] }

/-- A client holding a stale non-empty token. -/
def holdingStale : TDClient :=
  { clientId := "cid"
    refreshToken := "rtok"
    accessToken := "OLD"
    created_at := 0
    expires_in := -1
    accountIds := [] }

theorem checkToken_env (w : World) : (checkToken w).2.env = w.env := rfl

theorem checkToken_trace (w : World) :
    (checkToken w).2.trace = w.trace ++ [Event.tokenCheck] := rfl

theorem doRequest_env (m u : String) (ps : List (String × String))
    (b : Option String) (w : World) : (doRequest m u ps b w).2.env = w.env := rfl

theorem doRequest_trace (m u : String) (ps : List (String × String))
    (b : Option String) (w : World) :
    (doRequest m u ps b w).2.trace = w.trace ++ [Event.httpRequest m u] := rfl

theorem doRequest_client (m u : String) (ps : List (String × String))
    (b : Option String) (w : World) :
    (doRequest m u ps b w).2.client = w.client := rfl

theorem doRequest_resp (m u : String) (ps : List (String × String))
    (b : Option String) (w : World) :
    (doRequest m u ps b w).1 =
      w.env.transport
        { method := m, url := u, headers := _headers w.client,
          params := ps, body := b } := rfl

theorem checkToken_ok (w : World) (tok : TokenResponse)
    (h : w.env.exchange w.exchangeCalls = Except.ok tok) :
    (checkToken w).1 = none := by
  simp only [checkToken, _updateAccessTokenIfExpired, h]
  split <;> simp

theorem checkToken_fresh (w : World) (h : isStale w.client w.env.now = false) :
    checkToken w = (none, { w with trace := w.trace ++ [Event.tokenCheck] }) := by
  simp [checkToken, _updateAccessTokenIfExpired, h]

theorem checkToken_stale_ok (w : World) (tok : TokenResponse)
    (hst : isStale w.client w.env.now = true)
    (h : w.env.exchange w.exchangeCalls = Except.ok tok) :
    checkToken w =
      (none,
       { w with
           client := { w.client with
                         accessToken := tok.access_token
                         created_at := w.env.now
                         expires_in := tok.expires_in }
           exchangeCalls := w.exchangeCalls + 1
           trace := w.trace ++ [Event.tokenCheck] }) := by
  simp [checkToken, _updateAccessTokenIfExpired, hst, h]

theorem requestsOf_append (a b : List Event) :
    requestsOf (a ++ b) = requestsOf a ++ requestsOf b := by
  simp [requestsOf]

theorem requestsOf_check_req (m u : String) :
    requestsOf [Event.tokenCheck, Event.httpRequest m u] = [(m, u)] := rfl

theorem checksBeforeRequests_pair (m u : String) (t : List Event) :
    checksBeforeRequests (Event.tokenCheck :: Event.httpRequest m u :: t) =
      checksBeforeRequests t := rfl

theorem dictSet_keyMem (d : List (JSON × JSON)) (k v k2 : JSON) :
    (∃ w, (k2, w) ∈ dictSet d k v) ↔ (k2 = k ∨ ∃ w, (k2, w) ∈ d) := by
  unfold dictSet
  by_cases hany : d.any (fun p => p.1 == k) = true
  · simp only [hany, if_true]
    constructor
    · rintro ⟨w2, hw⟩
      rw [List.mem_map] at hw
      obtain ⟨⟨p1, p2⟩, hp, hfp⟩ := hw
      by_cases hpk : (p1 == k) = true
      · simp only [hpk, if_true] at hfp
        left
        have : k = k2 := congrArg Prod.fst hfp
        exact this.symm
      · simp only [hpk] at hfp
        simp only [Bool.false_eq_true, if_false] at hfp
        right
        exact ⟨w2, hfp ▸ hp⟩
    · rintro (hk | ⟨w2, hw⟩)
      · subst hk
        rw [List.any_eq_true] at hany
        obtain ⟨⟨p1, p2⟩, hp, hpk⟩ := hany
        refine ⟨v, ?_⟩
        rw [List.mem_map]
        exact ⟨(p1, p2), hp, by simp [hpk]⟩
      · by_cases hk2 : (k2 == k) = true
        · have hkk : k2 = k := eq_of_beq hk2
          subst hkk
          rw [List.any_eq_true] at hany
          obtain ⟨⟨p1, p2⟩, hp, hpk⟩ := hany
          refine ⟨v, ?_⟩
          rw [List.mem_map]
          exact ⟨(p1, p2), hp, by simp [hpk]⟩
        · refine ⟨w2, ?_⟩
          rw [List.mem_map]
          exact ⟨(k2, w2), hw, by simp [hk2]⟩
  · simp only [hany]
    simp only [Bool.false_eq_true, if_false, List.mem_append, List.mem_singleton]
    constructor
    · rintro ⟨w2, hw | hw⟩
      · exact Or.inr ⟨w2, hw⟩
      · left
        have : k2 = k := congrArg Prod.fst hw
        exact this
    · rintro (hk | ⟨w2, hw⟩)
      · subst hk
        exact ⟨v, Or.inr rfl⟩
      · exact ⟨w2, Or.inl hw⟩

/-- C2: the staleness condition of `_updateAccessTokenIfExpired` is true iff
the stored access token string is empty or `now - created_at ≥
expires_in - 60`; a freshly constructed store (empty token, `expires_in =
-1`) is stale at every instant, and its first check performs the exchange
unconditionally — installing the token on success, raising on failure. -/
theorem staleness_check_characterization :
    (∀ (c : TDClient) (now : Int),
        isStale c now = true ↔
          (c.accessToken = "" ∨ now - c.created_at ≥ c.expires_in - 60)) ∧
    (∀ (cid rt : String) (ids : List String) (t0 now : Int),
        isStale (TDClient.init cid rt ids t0) now = true) ∧
    (∀ (cid rt : String) (ids : List String) (t0 now : Int)
        (tok : TokenResponse),
        _updateAccessTokenIfExpired (TDClient.init cid rt ids t0) now
            (Except.ok tok) =
          ({ TDClient.init cid rt ids t0 with
               accessToken := tok.access_token
               created_at := now
               expires_in := tok.expires_in }, none)) ∧
    (∀ (cid rt : String) (ids : List String) (t0 now : Int) (msg : String),
        _updateAccessTokenIfExpired (TDClient.init cid rt ids t0) now
            (Except.error msg) = (TDClient.init cid rt ids t0, some msg)) := by
  refine ⟨?_, ?_, ?_, ?_⟩
  · intro c now
    simp [isStale, _accessTokenAgeSecs]
  · intro cid rt ids t0 now
    simp [isStale, TDClient.init]
  · intro cid rt ids t0 now tok
    simp [_updateAccessTokenIfExpired, isStale, TDClient.init]
  · intro cid rt ids t0 now msg
    simp [_updateAccessTokenIfExpired, isStale, TDClient.init]

/-- C3: a failing refresh-token exchange propagates the failure and leaves
`accessToken`, `created_at` and `expires_in` exactly as they were (the
exchange call precedes every assignment in the source), and the failure
surfaces precisely when the exchange was attempted, i.e. the token was
stale. -/
theorem refresh_failure_preserves_state :
    ∀ (c : TDClient) (now : Int) (msg : String),
      (_updateAccessTokenIfExpired c now (Except.error msg)).1 = c ∧
      ((_updateAccessTokenIfExpired c now (Except.error msg)).2 = some msg ↔
        isStale c now = true) := by
  intro c now msg
  unfold _updateAccessTokenIfExpired
  cases h : isStale c now <;> simp [h]

/-- C6: the authorization headers are exactly the two-entry mapping
Authorization: Bearer + current token, Content-Type: application/json, and
every issued request carries the headers computed from the client state
current at the time of the call. -/
theorem headers_exact :
    (∀ c : TDClient,
        _headers c =
          [("Authorization", "Bearer " ++ c.accessToken),
           ("Content-Type", "application/json")] ∧
        (_headers c).length = 2) ∧
    (∀ (m u : String) (ps : List (String × String)) (b : Option String)
        (w : World),
        (doRequest m u ps b w).1 =
          w.env.transport
            { method := m, url := u, headers := _headers w.client,
              params := ps, body := b }) :=
  ⟨fun _ => ⟨rfl, rfl⟩, fun _ _ _ _ _ => rfl⟩

/-- C9: the query-string suffix computed by `accounts` for the four
combinations of the `positions` and `orders` flags. -/
theorem accounts_fields_suffix :
    accountsFields true true = "?fields=positions,orders" ∧
    accountsFields true false = "?fields=positions" ∧
    accountsFields false true = "?fields=orders" ∧
    accountsFields false false = "" := by
  refine ⟨?_, ?_, ?_, ?_⟩ <;> decide

/-- C10: `fundamental symbol` equals `search symbol "fundamental"`
extensionally: same token check, same request, same result and same final
state on every input world. -/
theorem fundamental_is_search :
    ∀ (symbol : String) (w : World),
      fundamental symbol w = search symbol "fundamental" w :=
  fun _ _ => rfl

/-- C4 (amended): after a token check whose exchange outcome is a success
carrying a non-empty access token and a lifetime greater than 60, no failure
is raised, the store is not stale at the same instant, and a second
immediate check performs no exchange call and leaves the client record
unchanged. -/
theorem refresh_then_not_stale (w : World) (tok : TokenResponse)
    (hok : w.env.exchange w.exchangeCalls = Except.ok tok)
    (hne : tok.access_token ≠ "")
    (hexp : tok.expires_in > 60) :
    (checkToken w).1 = none ∧
    isStale (checkToken w).2.client w.env.now = false ∧
    (checkToken (checkToken w).2).1 = none ∧
    (checkToken (checkToken w).2).2.client = (checkToken w).2.client ∧
    (checkToken (checkToken w).2).2.exchangeCalls =
      (checkToken w).2.exchangeCalls := by
  have h1 : (checkToken w).1 = none := checkToken_ok w tok hok
  have hstale : isStale (checkToken w).2.client w.env.now = false := by
    cases hst : isStale w.client w.env.now
    · rw [checkToken_fresh w hst]
      exact hst
    · rw [checkToken_stale_ok w tok hst hok]
      simp [isStale, _accessTokenAgeSecs, hne]
      omega
  have h2 := checkToken_fresh (checkToken w).2 hstale
  refine ⟨h1, hstale, ?_, ?_, ?_⟩ <;> rw [h2]

/-- C4 witness: the amended statement evaluated on a freshly constructed
client whose first exchange returns the token ("TOK", 1800). -/
theorem refresh_then_not_stale_witness :
    (checkToken freshWorld).1 = none ∧
    isStale (checkToken freshWorld).2.client freshWorld.env.now = false ∧
    (checkToken (checkToken freshWorld).2).1 = none ∧
    (checkToken (checkToken freshWorld).2).2.client =
      (checkToken freshWorld).2.client ∧
    (checkToken (checkToken freshWorld).2).2.exchangeCalls =
      (checkToken freshWorld).2.exchangeCalls :=
  refresh_then_not_stale freshWorld ⟨"TOK", 1800⟩ rfl (by decide) (by decide)

/-- C4 counterexample: from a freshly constructed store, an exchange that
succeeds (raises nothing) with expires_in = 3600 > 60 but an empty
access_token string leaves the store stale at the same instant, and the
immediately following check performs a further exchange call — refuting the
claim as stated. -/
theorem refresh_empty_token_still_stale :
    (checkToken emptyTokWorld).1 = none ∧
    isStale (checkToken emptyTokWorld).2.client emptyTokWorld.env.now = true ∧
    (checkToken (checkToken emptyTokWorld).2).2.exchangeCalls =
      (checkToken emptyTokWorld).2.exchangeCalls + 1 := by
  refine ⟨?_, ?_, ?_⟩ <;> decide

theorem runChecks_keeps_token :
    ∀ (steps : List (Int × AuthResult)) (c : TDClient),
      (∀ p ∈ steps, ∀ tok : TokenResponse,
          p.2 = Except.ok tok → tok.access_token ≠ "") →
      c.accessToken ≠ "" → (runChecks c steps).accessToken ≠ "" := by
  intro steps
  induction steps with
  | nil =>
    intro c _ h
    simpa [runChecks] using h
  | cons p rest ih =>
    intro c hne h
    obtain ⟨t, ex⟩ := p
    have hstep : ((_updateAccessTokenIfExpired c t ex).1).accessToken ≠ "" := by
      unfold _updateAccessTokenIfExpired
      cases hst : isStale c t with
      | false => simpa [hst] using h
      | true =>
        cases ex with
        | error e => simpa [hst] using h
        | ok tok =>
          simpa [hst] using
            hne (t, Except.ok tok) (List.mem_cons_self _ _) tok rfl
    have hrun : runChecks c ((t, ex) :: rest) =
        runChecks ((_updateAccessTokenIfExpired c t ex).1) rest := by
      simp [runChecks]
    rw [hrun]
    exact ih _ (fun q hq tok hq2 => hne q (List.mem_cons_of_mem _ hq) tok hq2)
      hstep

/-- C7 (amended): provided every successful exchange outcome carries a
non-empty access token, a non-empty access token is preserved by every
sequence of checks (no runtime path returns the store to the empty-token
state); every check either leaves the record exactly unchanged or updates
`accessToken`, `created_at` and `expires_in` together from a successful
exchange; and a failing exchange always leaves the record unchanged. -/
theorem token_store_invariant (c : TDClient) (steps : List (Int × AuthResult))
    (hne : ∀ p ∈ steps, ∀ tok : TokenResponse,
        p.2 = Except.ok tok → tok.access_token ≠ "") :
    (c.accessToken ≠ "" → (runChecks c steps).accessToken ≠ "") ∧
    (∀ (now : Int) (ex : AuthResult),
        (_updateAccessTokenIfExpired c now ex).1 = c ∨
        ∃ tok : TokenResponse, ex = Except.ok tok ∧
          (_updateAccessTokenIfExpired c now ex).1 =
            { c with accessToken := tok.access_token
                     created_at := now
                     expires_in := tok.expires_in }) ∧
    (∀ (now : Int) (msg : String),
        (_updateAccessTokenIfExpired c now (Except.error msg)).1 = c) := by
  refine ⟨runChecks_keeps_token steps c hne, ?_, ?_⟩
  · intro now ex
    unfold _updateAccessTokenIfExpired
    cases hst : isStale c now with
    | false => left; simp [hst]
    | true =>
      cases ex with
      | error e => left; simp [hst]
      | ok tok => right; exact ⟨tok, rfl, by simp [hst]⟩
  · intro now msg
    unfold _updateAccessTokenIfExpired
    cases hst : isStale c now <;> simp [hst]

/-- C7 witness: the amended statement evaluated on a client holding "TOK"
over a refresh that succeeds with ("NEW", 900) followed by one that fails. -/
theorem token_store_invariant_witness :
    (holdingClient.accessToken ≠ "" →
      (runChecks holdingClient
        [(0, Except.ok ⟨"NEW", 900⟩),
         (1, Except.error "down")]).accessToken ≠ "") ∧
    (∀ (now : Int) (ex : AuthResult),
        (_updateAccessTokenIfExpired holdingClient now ex).1 = holdingClient ∨
        ∃ tok : TokenResponse, ex = Except.ok tok ∧
          (_updateAccessTokenIfExpired holdingClient now ex).1 =
            { holdingClient with
                accessToken := tok.access_token
                created_at := now
                expires_in := tok.expires_in }) ∧
    (∀ (now : Int) (msg : String),
        (_updateAccessTokenIfExpired holdingClient now
          (Except.error msg)).1 = holdingClient) :=
  token_store_invariant holdingClient
    [(0, Except.ok ⟨"NEW", 900⟩), (1, Except.error "down")]
    (by
      intro p hp tok h
      simp only [List.mem_cons, List.not_mem_nil, or_false] at hp
      rcases hp with rfl | rfl
      · simp only at h
        injection h with h2
        subst h2
        decide
      · simp only at h
        exact absurd h (by simp))

/-- C7 counterexample: from the state holding the non-empty token "OLD", a
refresh that succeeds (raises nothing) but returns an empty access_token
puts the store back into the empty-token state — refuting the claim as
stated. -/
theorem successful_refresh_empties_token :
    (_updateAccessTokenIfExpired holdingStale 5 (Except.ok ⟨"", 100⟩)).2
      = none ∧
    holdingStale.accessToken ≠ "" ∧
    (runChecks holdingStale [(5, Except.ok ⟨"", 100⟩)]).accessToken = "" := by
  refine ⟨?_, ?_, ?_⟩ <;> decide

theorem endpoint_trace_shape (w : World) (method url : String)
    (params : List (String × String)) (body : Option String) :
    ∃ t, ((match checkToken w with
           | (some e, w1) => ((Except.error e : Except PyErr JSON), w1)
           | (none, w1) =>
             let (resp, w2) := doRequest method url params body w1
             (Except.ok resp.body, w2)).2).trace
        = w.trace ++ t ∧
      checksBeforeRequests t = true := by
  rcases hck : checkToken w with ⟨e, w1⟩
  have hw1 : w1.trace = w.trace ++ [Event.tokenCheck] := by
    have h := checkToken_trace w
    rw [hck] at h
    exact h
  cases e with
  | some err =>
    refine ⟨[Event.tokenCheck], ?_, rfl⟩
    simp [hck, hw1]
  | none =>
    refine ⟨[Event.tokenCheck, Event.httpRequest method url], ?_, rfl⟩
    simp [hck, doRequest, hw1]

theorem accountsLoop_trace_shape :
    ∀ (accs : List String) (fields : String) (ret : List (JSON × JSON))
      (w : World),
      ∃ t, (accountsLoop fields accs ret w).2.trace = w.trace ++ t ∧
        checksBeforeRequests t = true := by
  intro accs
  induction accs with
  | nil =>
    intro fields ret w
    exact ⟨[], by simp [accountsLoop], rfl⟩
  | cons acc rest ih =>
    intro fields ret w
    rcases hck : checkToken w with ⟨e, w1⟩
    have hw1 : w1.trace = w.trace ++ [Event.tokenCheck] := by
      have h := checkToken_trace w
      rw [hck] at h
      exact h
    cases e with
    | some err =>
      exact ⟨[Event.tokenCheck], by simp [accountsLoop, hck, hw1], rfl⟩
    | none =>
      rcases hdr : doRequest "GET" (ACCOUNTS ++ acc ++ fields) [] none w1
        with ⟨resp, w2⟩
      have hw2 : w2.trace = w.trace ++ [Event.tokenCheck,
          Event.httpRequest "GET" (ACCOUNTS ++ acc ++ fields)] := by
        have h := doRequest_trace "GET" (ACCOUNTS ++ acc ++ fields) [] none w1
        rw [hdr] at h
        rw [h, hw1]
        simp
      by_cases h200 : resp.status_code = 200
      · obtain ⟨t, ht, hgood⟩ :=
          ih fields (dictSet ret (JSON.str acc) resp.body) w2
        refine ⟨Event.tokenCheck ::
          Event.httpRequest "GET" (ACCOUNTS ++ acc ++ fields) :: t, ?_, ?_⟩
        · have hstep : (accountsLoop fields (acc :: rest) ret w).2 =
              (accountsLoop fields rest
                (dictSet ret (JSON.str acc) resp.body) w2).2 := by
            simp [accountsLoop, hck, hdr, h200]
          rw [hstep, ht, hw2]
          simp
        · rw [checksBeforeRequests_pair]
          exact hgood
      · refine ⟨[Event.tokenCheck,
          Event.httpRequest "GET" (ACCOUNTS ++ acc ++ fields)], ?_, rfl⟩
        have hstep : (accountsLoop fields (acc :: rest) ret w).2 = w2 := by
          simp [accountsLoop, hck, hdr, h200]
        rw [hstep]
        exact hw2

theorem accounts_trace_shape (p o : Bool) (w : World) :
    ∃ t, (accounts p o w).2.trace = w.trace ++ t ∧
      checksBeforeRequests t = true := by
  by_cases hids : w.client.accountIds.isEmpty
  case neg =>
    have h := accountsLoop_trace_shape w.client.accountIds
      (accountsFields p o) [] w
    simpa [accounts, hids] using h
  case pos =>
    rcases hck : checkToken w with ⟨e, w1⟩
    have hw1 : w1.trace = w.trace ++ [Event.tokenCheck] := by
      have h := checkToken_trace w
      rw [hck] at h
      exact h
    cases e with
    | some err =>
      exact ⟨[Event.tokenCheck], by simp [accounts, hids, hck, hw1], rfl⟩
    | none =>
      rcases hdr : doRequest "GET" (ACCOUNTS ++ accountsFields p o) [] none w1
        with ⟨resp, w2⟩
      have hw2 : w2.trace = w.trace ++ [Event.tokenCheck,
          Event.httpRequest "GET" (ACCOUNTS ++ accountsFields p o)] := by
        have h := doRequest_trace "GET" (ACCOUNTS ++ accountsFields p o) []
          none w1
        rw [hdr] at h
        rw [h, hw1]
        simp
      refine ⟨[Event.tokenCheck,
        Event.httpRequest "GET" (ACCOUNTS ++ accountsFields p o)], ?_, rfl⟩
      have hres : (accounts p o w).2 = w2 := by
        simp only [accounts, hids, if_true, hck, hdr]
        split
        · split
          · rfl
          · split <;> rfl
        · rfl
      rw [hres]
      exact hw2

/-- C5: every public endpoint operation — accounts, search, instrument,
quote, history, options, movers, place_order, replace_order, get_orders —
produces a trace in which every issued HTTP request is immediately preceded
by exactly one token check, and no request is ever issued without one (the
trace is a sequence of check-request pairs, possibly ending in a lone check
whose refresh raised). -/
theorem every_request_preceded_by_check :
    (∀ (p o : Bool) (w : World), ∃ t,
        (accounts p o w).2.trace = w.trace ++ t ∧
        checksBeforeRequests t = true) ∧
    (∀ (symbol projection : String) (w : World), ∃ t,
        (search symbol projection w).2.trace = w.trace ++ t ∧
        checksBeforeRequests t = true) ∧
    (∀ (cusip : String) (w : World), ∃ t,
        (instrument cusip w).2.trace = w.trace ++ t ∧
        checksBeforeRequests t = true) ∧
    (∀ (symbol : String) (w : World), ∃ t,
        (quote symbol w).2.trace = w.trace ++ t ∧
        checksBeforeRequests t = true) ∧
    (∀ (symbol : String) (kwargs : List (String × String)) (w : World), ∃ t,
        (history symbol kwargs w).2.trace = w.trace ++ t ∧
        checksBeforeRequests t = true) ∧
    (∀ (symbol : String) (kwargs : List (String × String)) (w : World), ∃ t,
        (options symbol kwargs w).2.trace = w.trace ++ t ∧
        checksBeforeRequests t = true) ∧
    (∀ (index direction change_type : String) (w : World), ∃ t,
        (movers index direction change_type w).2.trace = w.trace ++ t ∧
        checksBeforeRequests t = true) ∧
    (∀ (account_id : String) (order_dict : JSON) (w : World), ∃ t,
        (place_order account_id order_dict w).2.trace = w.trace ++ t ∧
        checksBeforeRequests t = true) ∧
    (∀ (account_id order_id : String) (order_dict : JSON) (w : World), ∃ t,
        (replace_order account_id order_id order_dict w).2.trace =
          w.trace ++ t ∧
        checksBeforeRequests t = true) ∧
    (∀ (account_id : String) (kwargs : List (String × String)) (w : World),
        ∃ t, (get_orders account_id kwargs w).2.trace = w.trace ++ t ∧
        checksBeforeRequests t = true) := by
  refine ⟨accounts_trace_shape, ?_, ?_, ?_, ?_, ?_, ?_, ?_, ?_, ?_⟩
  · intro symbol projection w
    exact endpoint_trace_shape w "GET" SEARCH
      [("symbol", symbol), ("projection", projection)] none
  · intro cusip w
    exact endpoint_trace_shape w "GET" (INSTRUMENTS ++ cusip) [] none
  · intro symbol w
    exact endpoint_trace_shape w "GET" QUOTES
      [("symbol", symbol.toUpper)] none
  · intro symbol kwargs w
    exact endpoint_trace_shape w "GET" (HISTORY symbol) kwargs none
  · intro symbol kwargs w
    exact endpoint_trace_shape w "GET" OPTIONCHAIN
      (strDictMerge [("symbol", symbol.toUpper)] kwargs) none
  · intro index direction change_type w
    exact endpoint_trace_shape w "GET" (MOVERS index)
      [("direction", direction), ("change_type", change_type)] none
  · intro account_id order_dict w
    exact endpoint_trace_shape w "POST" (ORDERS account_id) []
      (some (jsonDumps order_dict))
  · intro account_id order_id order_dict w
    exact endpoint_trace_shape w "PUT" (ORDER_REPLACE account_id order_id) []
      (some (jsonDumps order_dict))
  · intro account_id kwargs w
    exact endpoint_trace_shape w "GET" (ORDERS account_id)
      (strDictMerge [] kwargs) none

theorem accountsLoop_stops_at_failure (respFor : String → HTTPResponse) :
    ∀ (pre : List String) (acc : String) (rest : List String)
      (fields : String) (ret : List (JSON × JSON)) (w : World),
      (∀ n, ∃ tok : TokenResponse, w.env.exchange n = Except.ok tok) →
      (∀ req : Request, w.env.transport req = respFor req.url) →
      (∀ a ∈ pre, (respFor (ACCOUNTS ++ a ++ fields)).status_code = 200) →
      (respFor (ACCOUNTS ++ acc ++ fields)).status_code ≠ 200 →
      (accountsLoop fields (pre ++ acc :: rest) ret w).1 =
        Except.error (PyErr.exception
          (respFor (ACCOUNTS ++ acc ++ fields)).text) := by
  intro pre
  induction pre with
  | nil =>
    intro acc rest fields ret w hex htr hpre hfail
    obtain ⟨tok, htok⟩ := hex w.exchangeCalls
    have hck1 : (checkToken w).1 = none := checkToken_ok w tok htok
    rcases hck : checkToken w with ⟨e, w1⟩
    have he : e = none := by rw [hck] at hck1; exact hck1
    subst he
    have henv1 : w1.env = w.env := by
      have h := checkToken_env w; rw [hck] at h; exact h
    rcases hdr : doRequest "GET" (ACCOUNTS ++ acc ++ fields) [] none w1
      with ⟨resp, w2⟩
    have hresp : resp = respFor (ACCOUNTS ++ acc ++ fields) := by
      have h := doRequest_resp "GET" (ACCOUNTS ++ acc ++ fields) [] none w1
      rw [hdr] at h
      simp only at h
      rw [h, henv1, htr]
    subst hresp
    simp [accountsLoop, hck, hdr, hfail]
  | cons a pre ih =>
    intro acc rest fields ret w hex htr hpre hfail
    obtain ⟨tok, htok⟩ := hex w.exchangeCalls
    have hck1 : (checkToken w).1 = none := checkToken_ok w tok htok
    rcases hck : checkToken w with ⟨e, w1⟩
    have he : e = none := by rw [hck] at hck1; exact hck1
    subst he
    have henv1 : w1.env = w.env := by
      have h := checkToken_env w; rw [hck] at h; exact h
    rcases hdr : doRequest "GET" (ACCOUNTS ++ a ++ fields) [] none w1
      with ⟨resp, w2⟩
    have hresp : resp = respFor (ACCOUNTS ++ a ++ fields) := by
      have h := doRequest_resp "GET" (ACCOUNTS ++ a ++ fields) [] none w1
      rw [hdr] at h
      simp only at h
      rw [h, henv1, htr]
    subst hresp
    have henv2 : w2.env = w.env := by
      have h := doRequest_env "GET" (ACCOUNTS ++ a ++ fields) [] none w1
      rw [hdr] at h
      simp only at h
      rw [h, henv1]
    have h200a : (respFor (ACCOUNTS ++ a ++ fields)).status_code = 200 :=
      hpre a (List.mem_cons_self a pre)
    have hstep : accountsLoop fields ((a :: pre) ++ acc :: rest) ret w =
        accountsLoop fields (pre ++ acc :: rest)
          (dictSet ret (JSON.str a)
            (respFor (ACCOUNTS ++ a ++ fields)).body) w2 := by
      simp [accountsLoop, hck, hdr, h200a]
    rw [hstep]
    exact ih acc rest fields _ w2 (by rw [henv2]; exact hex)
      (by rw [henv2]; exact htr)
      (fun x hx => hpre x (List.mem_cons_of_mem _ hx)) hfail

/-- C1 (amended): error surfacing is per-endpoint, not uniform.  Every
endpoint operation other than `accounts` — search, instrument, quote,
history, options, movers, place_order, replace_order, get_orders — performs
no status check at all: whenever its token check passes it returns the
parsed JSON body of the response whatever the status code, so a non-2xx
response there is returned as a success value.  Only `accounts` checks the
status — against exactly 200, not 2xx in general: on any other status it
raises an exception carrying the response body text (but not the status
code), both in its all-accounts branch and in its per-account branch at
whichever listed id first receives a non-200 response. -/
theorem resource_error_surfacing :
    (∀ (symbol : String) (w w1 : World),
        checkToken w = (none, w1) →
        (quote symbol w).1 =
          Except.ok ((doRequest "GET" QUOTES [("symbol", symbol.toUpper)]
            none w1).1).body) ∧
    (∀ (p o : Bool) (w w1 : World),
        w.client.accountIds = [] →
        checkToken w = (none, w1) →
        ((doRequest "GET" (ACCOUNTS ++ accountsFields p o) [] none
          w1).1).status_code ≠ 200 →
        (accounts p o w).1 =
          Except.error (PyErr.exception
            ((doRequest "GET" (ACCOUNTS ++ accountsFields p o) [] none
              w1).1).text)) ∧
    (∀ (p o : Bool) (w : World) (respFor : String → HTTPResponse)
        (pre : List String) (acc : String) (rest : List String),
        w.client.accountIds = pre ++ acc :: rest →
        (∀ n, ∃ tok : TokenResponse, w.env.exchange n = Except.ok tok) →
        (∀ req : Request, w.env.transport req = respFor req.url) →
        (∀ a ∈ pre,
          (respFor (ACCOUNTS ++ a ++ accountsFields p o)).status_code
            = 200) →
        (respFor (ACCOUNTS ++ acc ++ accountsFields p o)).status_code
          ≠ 200 →
        (accounts p o w).1 =
          Except.error (PyErr.exception
            (respFor (ACCOUNTS ++ acc ++ accountsFields p o)).text)) ∧
    (∀ (symbol projection : String) (w w1 : World),
        checkToken w = (none, w1) →
        (search symbol projection w).1 =
          Except.ok ((doRequest "GET" SEARCH
            [("symbol", symbol), ("projection", projection)]
            none w1).1).body) ∧
    (∀ (cusip : String) (w w1 : World),
        checkToken w = (none, w1) →
        (instrument cusip w).1 =
          Except.ok ((doRequest "GET" (INSTRUMENTS ++ cusip) []
            none w1).1).body) ∧
    (∀ (symbol : String) (kwargs : List (String × String)) (w w1 : World),
        checkToken w = (none, w1) →
        (history symbol kwargs w).1 =
          Except.ok ((doRequest "GET" (HISTORY symbol) kwargs
            none w1).1).body) ∧
    (∀ (symbol : String) (kwargs : List (String × String)) (w w1 : World),
        checkToken w = (none, w1) →
        (options symbol kwargs w).1 =
          Except.ok ((doRequest "GET" OPTIONCHAIN
            (strDictMerge [("symbol", symbol.toUpper)] kwargs)
            none w1).1).body) ∧
    (∀ (index direction change_type : String) (w w1 : World),
        checkToken w = (none, w1) →
        (movers index direction change_type w).1 =
          Except.ok ((doRequest "GET" (MOVERS index)
            [("direction", direction), ("change_type", change_type)]
            none w1).1).body) ∧
    (∀ (account_id : String) (order_dict : JSON) (w w1 : World),
        checkToken w = (none, w1) →
        (place_order account_id order_dict w).1 =
          Except.ok ((doRequest "POST" (ORDERS account_id) []
            (some (jsonDumps order_dict)) w1).1).body) ∧
    (∀ (account_id order_id : String) (order_dict : JSON) (w w1 : World),
        checkToken w = (none, w1) →
        (replace_order account_id order_id order_dict w).1 =
          Except.ok ((doRequest "PUT" (ORDER_REPLACE account_id order_id) []
            (some (jsonDumps order_dict)) w1).1).body) ∧
    (∀ (account_id : String) (kwargs : List (String × String)) (w w1 : World),
        checkToken w = (none, w1) →
        (get_orders account_id kwargs w).1 =
          Except.ok ((doRequest "GET" (ORDERS account_id)
            (strDictMerge [] kwargs) none w1).1).body) := by
  refine ⟨?_, ?_, ?_, ?_, ?_, ?_, ?_, ?_, ?_, ?_, ?_⟩
  · intro symbol w w1 hck
    simp [quote, hck, doRequest]
  · intro p o w w1 hids hck hstatus
    have hempty : w.client.accountIds.isEmpty = true := by
      rw [hids]; rfl
    rcases hdr : doRequest "GET" (ACCOUNTS ++ accountsFields p o) [] none w1
      with ⟨resp, w2⟩
    rw [hdr] at hstatus
    simp only at hstatus
    simp [accounts, hempty, hck, hdr, hstatus]
  · intro p o w respFor pre acc rest hids hex htr hpre hfail
    have hempty : w.client.accountIds.isEmpty = false := by
      rw [hids]
      cases pre <;> rfl
    have hloop := accountsLoop_stops_at_failure respFor pre acc rest
      (accountsFields p o) [] w hex htr hpre hfail
    have hacc : (accounts p o w).1 =
        (accountsLoop (accountsFields p o) (pre ++ acc :: rest) [] w).1 := by
      simp [accounts, hempty, hids]
    rw [hacc, hloop]
  · intro symbol projection w w1 hck
    simp [search, hck, doRequest]
  · intro cusip w w1 hck
    simp [instrument, hck, doRequest]
  · intro symbol kwargs w w1 hck
    simp [history, hck, doRequest]
  · intro symbol kwargs w w1 hck
    simp [options, hck, doRequest]
  · intro index direction change_type w w1 hck
    simp [movers, hck, doRequest]
  · intro account_id order_dict w w1 hck
    simp [place_order, hck, doRequest]
  · intro account_id order_id order_dict w w1 hck
    simp [replace_order, hck, doRequest]
  · intro account_id kwargs w w1 hck
    simp [get_orders, hck, doRequest]

/-- C1 witness: every conjunct of the amended statement evaluated on
concrete worlds — a holding client whose transport answers 500 for each of
the nine non-accounts endpoints, and fresh clients (empty and one-element id
lists) whose transport answers 500 for both branches of `accounts`. -/
theorem resource_error_surfacing_witness :
    ((quote "spy" err500World).1 =
      Except.ok ((doRequest "GET" QUOTES [("symbol", "spy".toUpper)]
        none (checkToken err500World).2).1).body) ∧
    ((accounts false false errAllWorld).1 =
      Except.error (PyErr.exception
        ((doRequest "GET" (ACCOUNTS ++ accountsFields false false) [] none
          (checkToken errAllWorld).2).1).text)) ∧
    ((accounts false false errListedWorld).1 =
      Except.error (PyErr.exception resp500.text)) ∧
    ((search "spy" "symbol-search" err500World).1 =
      Except.ok ((doRequest "GET" SEARCH
        [("symbol", "spy"), ("projection", "symbol-search")]
        none (checkToken err500World).2).1).body) ∧
    ((instrument "c123" err500World).1 =
      Except.ok ((doRequest "GET" (INSTRUMENTS ++ "c123") []
        none (checkToken err500World).2).1).body) ∧
    ((history "spy" [] err500World).1 =
      Except.ok ((doRequest "GET" (HISTORY "spy") []
        none (checkToken err500World).2).1).body) ∧
    ((options "spy" [] err500World).1 =
      Except.ok ((doRequest "GET" OPTIONCHAIN
        (strDictMerge [("symbol", "spy".toUpper)] [])
        none (checkToken err500World).2).1).body) ∧
    ((movers "$DJI" "up" "percent" err500World).1 =
      Except.ok ((doRequest "GET" (MOVERS "$DJI")
        [("direction", "up"), ("change_type", "percent")]
        none (checkToken err500World).2).1).body) ∧
    ((place_order "acct1" JSON.null err500World).1 =
      Except.ok ((doRequest "POST" (ORDERS "acct1") []
        (some (jsonDumps JSON.null)) (checkToken err500World).2).1).body) ∧
    ((replace_order "acct1" "ord1" JSON.null err500World).1 =
      Except.ok ((doRequest "PUT" (ORDER_REPLACE "acct1" "ord1") []
        (some (jsonDumps JSON.null)) (checkToken err500World).2).1).body) ∧
    ((get_orders "acct1" [] err500World).1 =
      Except.ok ((doRequest "GET" (ORDERS "acct1")
        (strDictMerge [] []) none (checkToken err500World).2).1).body) :=
  ⟨resource_error_surfacing.1 "spy" err500World (checkToken err500World).2
      rfl,
   resource_error_surfacing.2.1 false false errAllWorld
      (checkToken errAllWorld).2 rfl rfl (by decide),
   resource_error_surfacing.2.2.1 false false errListedWorld
      (fun _ => resp500) [] "A" [] rfl
      (fun _ => ⟨⟨"TOK", 1800⟩, rfl⟩) (fun _ => rfl)
      (by intro a ha; cases ha) (by decide),
   resource_error_surfacing.2.2.2.1 "spy" "symbol-search" err500World
      (checkToken err500World).2 rfl,
   resource_error_surfacing.2.2.2.2.1 "c123" err500World
      (checkToken err500World).2 rfl,
   resource_error_surfacing.2.2.2.2.2.1 "spy" [] err500World
      (checkToken err500World).2 rfl,
   resource_error_surfacing.2.2.2.2.2.2.1 "spy" [] err500World
      (checkToken err500World).2 rfl,
   resource_error_surfacing.2.2.2.2.2.2.2.1 "$DJI" "up" "percent"
      err500World (checkToken err500World).2 rfl,
   resource_error_surfacing.2.2.2.2.2.2.2.2.1 "acct1" JSON.null err500World
      (checkToken err500World).2 rfl,
   resource_error_surfacing.2.2.2.2.2.2.2.2.2.1 "acct1" "ord1" JSON.null
      err500World (checkToken err500World).2 rfl,
   resource_error_surfacing.2.2.2.2.2.2.2.2.2.2 "acct1" [] err500World
      (checkToken err500World).2 rfl⟩

/-- C1 counterexample: with a currently valid token and a transport
answering status 500 with a JSON error body, `quote` returns the parsed 500
body as a success value — the non-2xx response is parsed as a success and no
failure carrying the status is raised, refuting the claim as stated. -/
theorem quote_swallows_500 :
    resp500.status_code = 500 ∧
    (quote "spy" err500World).1 = Except.ok resp500.body ∧
    (quote "spy" err500World).1 =
      Except.ok (JSON.obj [("error", JSON.str "boom")]) := by
  refine ⟨?_, ?_, ?_⟩ <;> decide

theorem insertAccounts_keys :
    ∀ (accountList : List JSON) (ids : List JSON) (ret : List (JSON × JSON)),
      List.Forall₂ (fun a k => accountKey a = Except.ok k) accountList ids →
      ∃ d, insertAccounts accountList ret = Except.ok d ∧
        ∀ k : JSON, (∃ v, (k, v) ∈ d) ↔ (k ∈ ids ∨ ∃ v, (k, v) ∈ ret) := by
  intro accountList ids ret h
  induction h generalizing ret with
  | nil =>
    exact ⟨ret, rfl, by simp⟩
  | cons hak htail ih =>
    rename_i a k as ks
    obtain ⟨d, hd, hkeys⟩ := ih (dictSet ret k a)
    refine ⟨d, ?_, ?_⟩
    · simp [insertAccounts, hak, hd]
    · intro k2
      rw [hkeys k2, dictSet_keyMem]
      simp only [List.mem_cons]
      tauto

theorem accountsLoop_ok (resp0 : HTTPResponse)
    (h200 : resp0.status_code = 200) :
    ∀ (accs : List String) (fields : String) (ret : List (JSON × JSON))
      (w : World),
      (∀ n, ∃ tok : TokenResponse, w.env.exchange n = Except.ok tok) →
      (∀ req : Request, w.env.transport req = resp0) →
      ∃ d w9,
        accountsLoop fields accs ret w = (Except.ok d, w9) ∧
        requestsOf w9.trace = requestsOf w.trace ++
          accs.map (fun a => ("GET", ACCOUNTS ++ a ++ fields)) ∧
        (∀ k : JSON, (∃ v, (k, v) ∈ d) ↔
          ((∃ a ∈ accs, k = JSON.str a) ∨ ∃ v, (k, v) ∈ ret)) := by
  intro accs
  induction accs with
  | nil =>
    intro fields ret w hex htr
    exact ⟨ret, w, by simp [accountsLoop], by simp, by simp⟩
  | cons acc rest ih =>
    intro fields ret w hex htr
    obtain ⟨tok, htok⟩ := hex w.exchangeCalls
    have hck1 : (checkToken w).1 = none := checkToken_ok w tok htok
    rcases hck : checkToken w with ⟨e, w1⟩
    have he : e = none := by rw [hck] at hck1; exact hck1
    subst he
    have henv1 : w1.env = w.env := by
      have h := checkToken_env w; rw [hck] at h; exact h
    have hw1t : w1.trace = w.trace ++ [Event.tokenCheck] := by
      have h := checkToken_trace w; rw [hck] at h; exact h
    rcases hdr : doRequest "GET" (ACCOUNTS ++ acc ++ fields) [] none w1
      with ⟨resp, w2⟩
    have hresp : resp = resp0 := by
      have h := doRequest_resp "GET" (ACCOUNTS ++ acc ++ fields) [] none w1
      rw [hdr] at h
      simp only at h
      rw [h, henv1, htr]
    subst hresp
    have henv2 : w2.env = w.env := by
      have h := doRequest_env "GET" (ACCOUNTS ++ acc ++ fields) [] none w1
      rw [hdr] at h
      simp only at h
      rw [h, henv1]
    have hw2t : w2.trace = w1.trace ++
        [Event.httpRequest "GET" (ACCOUNTS ++ acc ++ fields)] := by
      have h := doRequest_trace "GET" (ACCOUNTS ++ acc ++ fields) [] none w1
      rw [hdr] at h
      exact h
    obtain ⟨d, w9, hloop, hreq, hkeys⟩ :=
      ih fields (dictSet ret (JSON.str acc) resp.body) w2
        (by rw [henv2]; exact hex) (by rw [henv2]; exact htr)
    refine ⟨d, w9, ?_, ?_, ?_⟩
    · have hstep : accountsLoop fields (acc :: rest) ret w =
          accountsLoop fields rest
            (dictSet ret (JSON.str acc) resp.body) w2 := by
        simp [accountsLoop, hck, hdr, h200]
      rw [hstep, hloop]
    · rw [hreq, hw2t, hw1t]
      simp [requestsOf_append, requestsOf]
    · intro k
      rw [hkeys k, dictSet_keyMem]
      simp only [List.mem_cons]
      constructor
      · rintro (⟨a, ha, rfl⟩ | (rfl | hv))
        · exact Or.inl ⟨a, Or.inr ha, rfl⟩
        · exact Or.inl ⟨acc, Or.inl rfl, rfl⟩
        · exact Or.inr hv
      · rintro (⟨a, (rfl | ha), rfl⟩ | hv)
        · exact Or.inr (Or.inl rfl)
        · exact Or.inl ⟨a, ha, rfl⟩
        · exact Or.inr (Or.inr hv)

/-- C8: with an empty configured account-id list, `accounts` issues a single
GET against the all-accounts endpoint and, on a 200 array response, returns
a mapping keyed by each returned account's `securitiesAccount.accountId`;
with a non-empty list it issues one GET per listed id and returns a mapping
keyed by exactly the listed ids. -/
theorem accounts_branches :
    (∀ (p o : Bool) (w : World) (accountList ids : List JSON)
        (resp0 : HTTPResponse),
        w.client.accountIds = [] →
        (∀ n, ∃ tok : TokenResponse, w.env.exchange n = Except.ok tok) →
        (∀ req : Request, w.env.transport req = resp0) →
        resp0.status_code = 200 →
        resp0.body = JSON.arr accountList →
        List.Forall₂ (fun a k => accountKey a = Except.ok k)
          accountList ids →
        requestsOf (accounts p o w).2.trace =
          requestsOf w.trace ++ [("GET", ACCOUNTS ++ accountsFields p o)] ∧
        ∃ d, (accounts p o w).1 = Except.ok d ∧
          ∀ k : JSON, (∃ v, (k, v) ∈ d) ↔ k ∈ ids) ∧
    (∀ (p o : Bool) (w : World) (resp0 : HTTPResponse),
        w.client.accountIds ≠ [] →
        (∀ n, ∃ tok : TokenResponse, w.env.exchange n = Except.ok tok) →
        (∀ req : Request, w.env.transport req = resp0) →
        resp0.status_code = 200 →
        requestsOf (accounts p o w).2.trace =
          requestsOf w.trace ++ w.client.accountIds.map
            (fun a => ("GET", ACCOUNTS ++ a ++ accountsFields p o)) ∧
        ∃ d, (accounts p o w).1 = Except.ok d ∧
          ∀ k : JSON, (∃ v, (k, v) ∈ d) ↔
            ∃ a ∈ w.client.accountIds, k = JSON.str a) := by
  constructor
  · intro p o w accountList ids resp0 hids hex htr h200 hbody hfa
    have hempty : w.client.accountIds.isEmpty = true := by
      rw [hids]; rfl
    obtain ⟨tok, htok⟩ := hex w.exchangeCalls
    have hck1 : (checkToken w).1 = none := checkToken_ok w tok htok
    rcases hck : checkToken w with ⟨e, w1⟩
    have he : e = none := by rw [hck] at hck1; exact hck1
    subst he
    have henv1 : w1.env = w.env := by
      have h := checkToken_env w; rw [hck] at h; exact h
    have hw1t : w1.trace = w.trace ++ [Event.tokenCheck] := by
      have h := checkToken_trace w; rw [hck] at h; exact h
    rcases hdr : doRequest "GET" (ACCOUNTS ++ accountsFields p o) [] none w1
      with ⟨resp, w2⟩
    have hresp : resp = resp0 := by
      have h := doRequest_resp "GET" (ACCOUNTS ++ accountsFields p o) []
        none w1
      rw [hdr] at h
      simp only at h
      rw [h, henv1, htr]
    subst hresp
    have hw2t : w2.trace = w1.trace ++
        [Event.httpRequest "GET" (ACCOUNTS ++ accountsFields p o)] := by
      have h := doRequest_trace "GET" (ACCOUNTS ++ accountsFields p o) []
        none w1
      rw [hdr] at h
      exact h
    obtain ⟨d, hd, hkeys⟩ := insertAccounts_keys accountList ids [] hfa
    have hiter : pyIter resp.body = Except.ok accountList := by
      rw [hbody]; rfl
    have hacc : accounts p o w = (Except.ok d, w2) := by
      simp [accounts, hempty, hck, hdr, h200, hiter, hd]
    constructor
    · rw [hacc]
      simp only
      rw [hw2t, hw1t]
      simp [requestsOf_append, requestsOf]
    · refine ⟨d, by rw [hacc], ?_⟩
      intro k
      rw [hkeys k]
      simp
  · intro p o w resp0 hne hex htr h200
    have hempty : w.client.accountIds.isEmpty = false := by
      cases hl : w.client.accountIds with
      | nil => exact absurd hl hne
      | cons a l => rfl
    obtain ⟨d, w9, hloop, hreq, hkeys⟩ :=
      accountsLoop_ok resp0 h200 w.client.accountIds (accountsFields p o)
        [] w hex htr
    have hacc : accounts p o w = (Except.ok d, w9) := by
      simp [accounts, hempty, hloop]
    constructor
    · rw [hacc]
      simp only
      exact hreq
    · refine ⟨d, by rw [hacc], ?_⟩
      intro k
      rw [hkeys k]
      simp

/-- C8 witness: both branches evaluated on concrete worlds — a client with
no configured ids receiving a 200 array of two account records keyed "A1",
"A2", and a client configured with ids ["A", "B"]. -/
theorem accounts_branches_witness :
    (requestsOf (accounts false false allAccountsWorld).2.trace =
        requestsOf allAccountsWorld.trace ++
          [("GET", ACCOUNTS ++ accountsFields false false)] ∧
      ∃ d, (accounts false false allAccountsWorld).1 = Except.ok d ∧
        ∀ k : JSON, (∃ v, (k, v) ∈ d) ↔
          k ∈ [JSON.str "A1", JSON.str "A2"]) ∧
    (requestsOf (accounts false false listedWorld).2.trace =
        requestsOf listedWorld.trace ++
          listedWorld.client.accountIds.map
            (fun a => ("GET", ACCOUNTS ++ a ++ accountsFields false false)) ∧
      ∃ d, (accounts false false listedWorld).1 = Except.ok d ∧
        ∀ k : JSON, (∃ v, (k, v) ∈ d) ↔
          ∃ a ∈ listedWorld.client.accountIds, k = JSON.str a) :=
  ⟨accounts_branches.1 false false allAccountsWorld
      [acct "A1", acct "A2"] [JSON.str "A1", JSON.str "A2"] allAccountsResp
      rfl (fun _ => ⟨⟨"TOK", 1800⟩, rfl⟩) (fun _ => rfl) (by decide) rfl
      (List.Forall₂.cons (by decide)
        (List.Forall₂.cons (by decide) List.Forall₂.nil)),
   accounts_branches.2 false false listedWorld ⟨200, JSON.null, "ok"⟩
      (by decide) (fun _ => ⟨⟨"TOK", 1800⟩, rfl⟩) (fun _ => rfl) (by decide)⟩

end TDA
